import Mathlib

/-!
Shallow embedding of `src/main.py` (a matplotlib script drawing a finite
automaton diagram) and proofs about the claims of its specification.

Modelling conventions:
* 2D points and vectors are `ℝ × ℝ` with componentwise `+`, `-` and scalar `•`.
* The matplotlib style keyword dictionaries are modelled as finite maps
  `String → Option V`, where `V` holds a string or a rational number; Python's
  `dict.copy` + `dict.update` become pointwise merging.  The `connectionstyle`
  keyword carries structured data (angles are real numbers formatted into a
  string in the source), so it is modelled as a separate structured optional
  argument `Option ConnStyle` instead of a string entry of the dictionary.
* Drawing mutates the process-global figure by appending patches; this is
  modelled by explicit state passing of a `List Patch` surface.
* `np.arctan2`, `np.radians`, `np.cos`, `np.sin` are modelled by the exact
  real functions they approximate.
-/

noncomputable section

namespace DigraphPlot

/-- A value stored in a matplotlib style keyword dictionary: a string or a
number (`lw=1.25`, `shrinkA=4`, ... are modelled as rationals). -/
inductive V where
  | str : String → V
  | num : ℚ → V
deriving DecidableEq

/-- A keyword dictionary: a finite map from keyword names to values. -/
abbrev Dict := String → Option V

/-- The empty keyword dictionary (a call with no style overrides). -/
def emptyKw : Dict := fun _ => none

/-- `SHADOW_DIR = -45` from the source. -/
def SHADOW_DIR : ℝ := -45

/-- `SHADOW_OFFSET = 0.085` from the source. -/
def SHADOW_OFFSET : ℝ := 0.085

/-- `SHADOW_COLOR = "gray"` from the source. -/
def SHADOW_COLOR : String := "gray"

/-- `DEFAULT_ARROW_STYLE` from the source, as a keyword dictionary. -/
def DEFAULT_ARROW_STYLE : Dict := fun k =>
  if k = "arrowstyle" then some (V.str "-|>,head_width=0.12,head_length=0.4")
  else if k = "fc" then some (V.str "k")
  else if k = "ec" then some (V.str "k")
  else if k = "lw" then some (V.num (5 / 4))
  else if k = "shrinkA" then some (V.num 4)
  else if k = "shrinkB" then some (V.num 1)
  else if k = "mutation_scale" then some (V.num 15)
  else none

/-- `np.radians`: degrees to radians. -/
def radians (angle : ℝ) : ℝ := angle * Real.pi / 180

/-- `dir2d(angle)`: angle in degrees to a unit vector in 2D
(`np.array([np.cos(theta), np.sin(theta)])` with `theta = np.radians(angle)`). -/
def dir2d (angle : ℝ) : ℝ × ℝ := (Real.cos (radians angle), Real.sin (radians angle))

/-- `np.arctan2(y, x)`: the angle in radians of the point `(x, y)`,
in `(-π, π]` (with `arctan2 0 0 = 0`). -/
def arctan2 (y x : ℝ) : ℝ :=
  if 0 < x then Real.arctan (y / x)
  else if x < 0 then
    if 0 ≤ y then Real.arctan (y / x) + Real.pi
    else Real.arctan (y / x) - Real.pi
  else
    if 0 < y then Real.pi / 2
    else if y < 0 then -(Real.pi / 2)
    else 0

/-- Squared Euclidean distance between two points of the plane. -/
def dist2 (p q : ℝ × ℝ) : ℝ := (p.1 - q.1) ^ 2 + (p.2 - q.2) ^ 2

/-- A `matplotlib.patches.Circle`: the style fields used at the call sites of
`draw_circle` (`fc`, `ec`, `lw`). -/
structure CirclePatch where
  center : ℝ × ℝ
  radius : ℝ
  fc : String
  ec : String
  lw : ℚ
deriving DecidableEq

/-- A `matplotlib.patches.Shadow` of a circle: a duplicate of the base patch
translated by `offset`, with its own face/edge colours, line width and
stacking order. -/
structure ShadowPatch where
  base : CirclePatch
  offset : ℝ × ℝ
  fc : String
  ec : String
  lw : ℚ
  zorder : ℤ

/-- The three connection styles used in the source, carrying the real-valued
parameters that the source formats into the connectionstyle string. -/
inductive ConnStyle where
  | angle3 (angleA angleB : ℝ)
  | arc (angleA angleB armA armB rad : ℝ)

/-- A `matplotlib.patches.FancyArrowPatch`: start and end points, the merged
keyword parameters, and the connection style (settable after construction by
`set_connectionstyle`). -/
structure ArrowPatch where
  start : ℝ × ℝ
  stop : ℝ × ℝ
  params : Dict
  connectionstyle : Option ConnStyle

/-- `FancyArrowPatch.set_connectionstyle`. -/
def ArrowPatch.set_connectionstyle (p : ArrowPatch) (c : ConnStyle) : ArrowPatch :=
  { start := p.start, stop := p.stop, params := p.params, connectionstyle := some c }

/-- A shape added to the current drawing surface. -/
inductive Patch where
  | circle : CirclePatch → Patch
  | shadow : ShadowPatch → Patch
  | arrow : ArrowPatch → Patch
  | text : (ℝ × ℝ) → String → Patch

/-- Arguments of one invocation of `draw_circle` (every call site of the
source passes exactly the keywords `fc`, `ec`, `lw`). -/
structure CircleCall where
  xy : ℝ × ℝ
  radius : ℝ
  with_shadow : Bool
  fc : String
  ec : String
  lw : ℚ
deriving DecidableEq

/-- `draw_circle`: the list of patches one invocation adds to the current
axes.  The shadow offset is `radius * dir2d(SHADOW_DIR) * SHADOW_OFFSET`
componentwise, and the shadow is created with `fc=SHADOW_COLOR`, `ec="none"`,
`lw=0`, `zorder=-1`. -/
def draw_circle (call : CircleCall) : List Patch :=
  let c : CirclePatch := ⟨call.xy, call.radius, call.fc, call.ec, call.lw⟩
  if call.with_shadow then
    let offset : ℝ × ℝ :=
      (call.radius * (dir2d SHADOW_DIR).1 * SHADOW_OFFSET,
       call.radius * (dir2d SHADOW_DIR).2 * SHADOW_OFFSET)
    [Patch.circle c, Patch.shadow ⟨c, offset, SHADOW_COLOR, "none", 0, -1⟩]
  else [Patch.circle c]

/-- `create_arrow_patch(start, end, **kwargs)`: the default style updated with
the caller's keywords; if a `color` keyword was supplied, `fc` and `ec` are
then both set to it.  The structured `connectionstyle` keyword is passed
separately (see the module conventions). -/
def create_arrow_patch (start stop : ℝ × ℝ) (kwargs : Dict)
    (connectionstyle : Option ConnStyle) : ArrowPatch :=
  let params : Dict := fun k =>
    match kwargs k with
    | some v => some v
    | none => DEFAULT_ARROW_STYLE k
  let params2 : Dict :=
    match kwargs "color" with
    | some c => fun k => if k = "fc" then some c else if k = "ec" then some c else params k
    | none => params
  ⟨start, stop, params2, connectionstyle⟩

/-- The `Node` class: one automaton state. -/
structure Node where
  xy : ℝ × ℝ
  label : String
  accept : Bool
  radius : ℝ

/-- The `draw_circle` invocations issued by `Node.draw(textonly, color)`:
none if `textonly`; a white outer circle at `radius` and a `color`-filled
inner circle at `radius * 0.85` if `accept`; a single `color`-filled circle
at `radius` otherwise. -/
def Node.drawCircleCalls (self : Node) (textonly : Bool) (color : String) :
    List CircleCall :=
  if textonly = false then
    if self.accept = false then
      [⟨self.xy, self.radius, true, color, "k", 1⟩]
    else
      [⟨self.xy, self.radius, true, "w", "k", 1⟩,
       ⟨self.xy, self.radius * 0.85, true, color, "k", 1⟩]
  else []

/-- The patches `Node.draw(textonly, color)` adds to the axes: the circles
(with shadows) of `drawCircleCalls`, then the label text if nonempty. -/
def Node.drawPatches (self : Node) (textonly : Bool) (color : String) : List Patch :=
  (if textonly = false then
    if self.accept = false then
      draw_circle ⟨self.xy, self.radius, true, color, "k", 1⟩
    else
      draw_circle ⟨self.xy, self.radius, true, "w", "k", 1⟩ ++
        draw_circle ⟨self.xy, self.radius * 0.85, true, color, "k", 1⟩
  else []) ++
  (if self.label = "" then [] else [Patch.text self.xy self.label])

/-- `Node.draw`: appends this node's patches to the current surface and
returns `self` (the node is not modified). -/
def Node.draw (self : Node) (textonly : Bool) (color : String)
    (surface : List Patch) : List Patch × Node :=
  (surface ++ self.drawPatches textonly color, self)

/-- `Node.arrowto(other, **kwargs)`: the arrow patch it constructs.  Note the
source computes `angle = np.arctan2(v[1], v[0])` (a value in radians) and
passes it to `dir2d`, which converts its argument from degrees. -/
def Node.arrowto (self other : Node) (kwargs : Dict) : ArrowPatch :=
  let v := other.xy - self.xy
  let angle := arctan2 v.2 v.1
  let start := self.xy + self.radius • dir2d angle
  let stop := other.xy - other.radius • dir2d angle
  create_arrow_patch start stop kwargs none

/-- `Node.curvearrowto(other, angleA, angleB, **kwargs)`: the arrow patch it
constructs, with connection style `angle3,angleA={angleA},angleB={angleB}`
set after construction. -/
def Node.curvearrowto (self other : Node) (angleA angleB : ℝ) (kwargs : Dict) :
    ArrowPatch :=
  let start := self.xy + self.radius • dir2d angleA
  let stop := other.xy - other.radius • dir2d angleB
  (create_arrow_patch start stop kwargs none).set_connectionstyle
    (ConnStyle.angle3 angleA angleB)

/-- `Node.loop(deg, **kwargs)`: the arrow patch it constructs; when the caller
supplies no connection style, the default
`arc,angleA={deg-10},angleB={deg+10},armA=100,armB=100,rad=30` is used. -/
def Node.loop (self : Node) (deg : ℝ) (connectionstyle : Option ConnStyle)
    (kwargs : Dict) : ArrowPatch :=
  let angleA := deg - 10
  let angleB := deg + 10
  let start := self.xy + self.radius • dir2d angleA
  let stop := self.xy + self.radius • dir2d angleB
  let cs : Option ConnStyle :=
    match connectionstyle with
    | none => some (ConnStyle.arc angleA angleB 100 100 30)
    | some c => some c
  create_arrow_patch start stop kwargs cs

/-- The node `start_text` of `example()`. -/
def start_text : Node := ⟨(-0.7, 0), "start", true, 0.15⟩

/-- The node `q0` of `example()`. -/
def q0 : Node := ⟨(0, 0), "$q_0$", true, 0.2⟩

/-! Helper lemmas shared by the claim theorems. -/

theorem dist2_add_smul_dir2d (p : ℝ × ℝ) (r θ : ℝ) :
    dist2 (p + r • dir2d θ) p = r ^ 2 := by
  simp only [dist2, dir2d, Prod.fst_add, Prod.snd_add, Prod.smul_mk, smul_eq_mul]
  linear_combination (r ^ 2) * Real.sin_sq_add_cos_sq (radians θ)

theorem dist2_sub_smul_dir2d (p : ℝ × ℝ) (r θ : ℝ) :
    dist2 (p - r • dir2d θ) p = r ^ 2 := by
  simp only [dist2, dir2d, Prod.fst_sub, Prod.snd_sub, Prod.smul_mk, smul_eq_mul]
  linear_combination (r ^ 2) * Real.sin_sq_add_cos_sq (radians θ)

theorem sqrt_dist2_add_smul_dir2d (p : ℝ × ℝ) {r : ℝ} (θ : ℝ) (h : 0 ≤ r) :
    Real.sqrt (dist2 (p + r • dir2d θ) p) = r := by
  rw [dist2_add_smul_dir2d, Real.sqrt_sq h]

theorem dir2d_zero : dir2d 0 = ((1 : ℝ), (0 : ℝ)) := by
  simp [dir2d, radians]

theorem dir2d_add_180 (θ : ℝ) : dir2d (θ + 180) = -dir2d θ := by
  have h : radians (θ + 180) = radians θ + Real.pi := by
    unfold radians; ring
  simp only [dir2d, h, Real.cos_add_pi, Real.sin_add_pi, Prod.neg_mk]

theorem arrowto_start (a b : Node) (kw : Dict) :
    (a.arrowto b kw).start =
      a.xy + a.radius • dir2d (arctan2 (b.xy - a.xy).2 (b.xy - a.xy).1) := rfl

theorem arrowto_stop (a b : Node) (kw : Dict) :
    (a.arrowto b kw).stop =
      b.xy - b.radius • dir2d (arctan2 (b.xy - a.xy).2 (b.xy - a.xy).1) := rfl

/-! Claim theorems. -/

/-- C5: for every node and angle `deg`, `loop deg` computes a start point and
an end point both at distance exactly the node's radius from the node's
center, at angles `deg - 10` and `deg + 10` degrees respectively. -/
theorem loop_endpoints_on_boundary (n : Node) (deg : ℝ) (cs : Option ConnStyle)
    (kwargs : Dict) (h : 0 ≤ n.radius) :
    (n.loop deg cs kwargs).start = n.xy + n.radius • dir2d (deg - 10) ∧
    (n.loop deg cs kwargs).stop = n.xy + n.radius • dir2d (deg + 10) ∧
    Real.sqrt (dist2 (n.loop deg cs kwargs).start n.xy) = n.radius ∧
    Real.sqrt (dist2 (n.loop deg cs kwargs).stop n.xy) = n.radius := by
  refine ⟨rfl, rfl, ?_, ?_⟩ <;>
    exact sqrt_dist2_add_smul_dir2d n.xy _ h

/-- C5 witness: the loop endpoints property evaluated on a concrete node of
radius 1 at `deg = 90`. -/
theorem loop_endpoints_on_boundary_witness :
    (0 : ℝ) ≤ (Node.mk (1, 2) "" true 1).radius ∧
    ((Node.mk (1, 2) "" true 1).loop 90 none emptyKw).start =
        (Node.mk (1, 2) "" true 1).xy +
          (Node.mk (1, 2) "" true 1).radius • dir2d (90 - 10) ∧
    ((Node.mk (1, 2) "" true 1).loop 90 none emptyKw).stop =
        (Node.mk (1, 2) "" true 1).xy +
          (Node.mk (1, 2) "" true 1).radius • dir2d (90 + 10) ∧
    Real.sqrt (dist2 ((Node.mk (1, 2) "" true 1).loop 90 none emptyKw).start
        (Node.mk (1, 2) "" true 1).xy) = (Node.mk (1, 2) "" true 1).radius ∧
    Real.sqrt (dist2 ((Node.mk (1, 2) "" true 1).loop 90 none emptyKw).stop
        (Node.mk (1, 2) "" true 1).xy) = (Node.mk (1, 2) "" true 1).radius :=
  ⟨by norm_num,
   loop_endpoints_on_boundary (Node.mk (1, 2) "" true 1) 90 none emptyKw (by norm_num)⟩

/-- C6: for every node drawn without `textonly`, `draw` issues two
circle-draw invocations when the node is accepting (outer ring at `radius`
with white fill, inner disk at `radius * 0.85` filled with `color`), one
invocation at `radius` filled with `color` when it is not, and returns the
node itself. -/
theorem draw_circle_invocations (n : Node) (color : String) (s : List Patch) :
    (n.drawCircleCalls false color =
      if n.accept then
        [⟨n.xy, n.radius, true, "w", "k", 1⟩,
         ⟨n.xy, n.radius * 0.85, true, color, "k", 1⟩]
      else [⟨n.xy, n.radius, true, color, "k", 1⟩]) ∧
    (n.draw false color s).2 = n := by
  refine ⟨?_, rfl⟩
  cases h : n.accept <;> simp [Node.drawCircleCalls, h]

/-- C8: for every center, radius and style, `draw_circle` with shadow enabled
adds the main circle and a shadow of it offset by
`radius * 0.085 * (cos (-45°), sin (-45°))`, placed at negative stacking
order, with the flat gray fill and no outline. -/
theorem draw_circle_shadow_spec (xy : ℝ × ℝ) (radius : ℝ) (fc ec : String)
    (lw : ℚ) :
    draw_circle ⟨xy, radius, true, fc, ec, lw⟩ =
      [Patch.circle ⟨xy, radius, fc, ec, lw⟩,
       Patch.shadow ⟨⟨xy, radius, fc, ec, lw⟩,
         (radius * 0.085 * (dir2d (-45)).1, radius * 0.085 * (dir2d (-45)).2),
         "gray", "none", 0, -1⟩] ∧
    (-1 : ℤ) < 0 := by
  refine ⟨?_, by norm_num⟩
  have h1 : radius * (dir2d SHADOW_DIR).1 * SHADOW_OFFSET
      = radius * 0.085 * (dir2d (-45)).1 := by
    simp only [SHADOW_DIR, SHADOW_OFFSET]; ring
  have h2 : radius * (dir2d SHADOW_DIR).2 * SHADOW_OFFSET
      = radius * 0.085 * (dir2d (-45)).2 := by
    simp only [SHADOW_DIR, SHADOW_OFFSET]; ring
  simp only [draw_circle, SHADOW_COLOR, if_true, h1, h2]

/-- C9: calling `draw` twice on the same node with identical arguments
appends two identical, independently constructed patch blocks to the surface,
and both calls return the node with all its fields unchanged. -/
theorem draw_twice_spec (n : Node) (textonly : Bool) (color : String)
    (s : List Patch) :
    (n.draw textonly color s).2 = n ∧
    ((n.draw textonly color s).2.draw textonly color (n.draw textonly color s).1).2
      = n ∧
    (n.draw textonly color s).1 = s ++ n.drawPatches textonly color ∧
    ((n.draw textonly color s).2.draw textonly color (n.draw textonly color s).1).1
      = s ++ n.drawPatches textonly color ++ n.drawPatches textonly color :=
  ⟨rfl, rfl, rfl, rfl⟩

/-- C7: `create_arrow_patch` keeps the given endpoints, starts from the fixed
default style (`-|>` arrowhead with width 0.12 and length 0.4, black fill and
edge, line width 1.25, shrinkA 4, shrinkB 1, mutation scale 15), merges in
the caller's overrides, and a single `color` override sets both the fill and
the edge color. -/
theorem create_arrow_patch_style_spec (start stop : ℝ × ℝ) (kwargs : Dict)
    (cs : Option ConnStyle) :
    (create_arrow_patch start stop kwargs cs).start = start ∧
    (create_arrow_patch start stop kwargs cs).stop = stop ∧
    DEFAULT_ARROW_STYLE "arrowstyle" =
      some (V.str "-|>,head_width=0.12,head_length=0.4") ∧
    DEFAULT_ARROW_STYLE "fc" = some (V.str "k") ∧
    DEFAULT_ARROW_STYLE "ec" = some (V.str "k") ∧
    DEFAULT_ARROW_STYLE "lw" = some (V.num (5 / 4)) ∧
    DEFAULT_ARROW_STYLE "shrinkA" = some (V.num 4) ∧
    DEFAULT_ARROW_STYLE "shrinkB" = some (V.num 1) ∧
    DEFAULT_ARROW_STYLE "mutation_scale" = some (V.num 15) ∧
    (kwargs "color" = none → ∀ k,
      (create_arrow_patch start stop kwargs cs).params k =
        match kwargs k with
        | some v => some v
        | none => DEFAULT_ARROW_STYLE k) ∧
    (∀ c, kwargs "color" = some c →
      (create_arrow_patch start stop kwargs cs).params "fc" = some c ∧
      (create_arrow_patch start stop kwargs cs).params "ec" = some c ∧
      ∀ k, k ≠ "fc" → k ≠ "ec" →
        (create_arrow_patch start stop kwargs cs).params k =
          match kwargs k with
          | some v => some v
          | none => DEFAULT_ARROW_STYLE k) := by
  refine ⟨rfl, rfl, rfl, rfl, rfl, rfl, rfl, rfl, rfl, ?_, ?_⟩
  · intro h k
    simp [create_arrow_patch, h]
  · intro c hc
    refine ⟨?_, ?_, ?_⟩
    · simp [create_arrow_patch, hc]
    · simp [create_arrow_patch, hc]
    · intro k hk1 hk2
      simp [create_arrow_patch, hc, hk1, hk2]

/-- A concrete override dictionary for the C7 witness: only `lw` is given. -/
def kwLwOnly : Dict := fun k => if k = "lw" then some (V.num 2) else none

/-- C7 witness: with an override of `lw` alone, the constructed arrow has the
overridden line width and the default fill color. -/
theorem create_arrow_patch_style_spec_witness :
    kwLwOnly "color" = none ∧
    (create_arrow_patch (0, 0) (1, 0) kwLwOnly none).params "lw" =
      some (V.num 2) ∧
    (create_arrow_patch (0, 0) (1, 0) kwLwOnly none).params "fc" =
      some (V.str "k") := by
  have h := (create_arrow_patch_style_spec (0, 0) (1, 0) kwLwOnly
    none).2.2.2.2.2.2.2.2.2.1 rfl
  refine ⟨rfl, ?_, ?_⟩
  · have hlw := h "lw"
    simpa [kwLwOnly] using hlw
  · have hfc := h "fc"
    simpa [kwLwOnly, DEFAULT_ARROW_STYLE] using hfc

/-- C10: a `color` override passed together with explicit `fc` or `ec`
overrides takes precedence: both the fill and the edge color of the produced
arrow equal the `color` value. -/
theorem color_overrides_fc_ec (start stop : ℝ × ℝ) (kwargs : Dict)
    (cs : Option ConnStyle) (c : V) (hc : kwargs "color" = some c)
    (_hfe : kwargs "fc" ≠ none ∨ kwargs "ec" ≠ none) :
    (create_arrow_patch start stop kwargs cs).params "fc" = some c ∧
    (create_arrow_patch start stop kwargs cs).params "ec" = some c := by
  constructor <;> simp [create_arrow_patch, hc]

/-- A concrete override dictionary for the C10 witness: `color` together with
an explicit `fc`. -/
def kwColorFc : Dict := fun k =>
  if k = "color" then some (V.str "y")
  else if k = "fc" then some (V.str "b") else none

/-- C10 witness: with `color="y"` and `fc="b"` supplied together, both the
fill and the edge color of the arrow are `"y"`. -/
theorem color_overrides_fc_ec_witness :
    kwColorFc "color" = some (V.str "y") ∧
    kwColorFc "fc" ≠ none ∧
    (create_arrow_patch (0, 0) (1, 0) kwColorFc none).params "fc" =
      some (V.str "y") ∧
    (create_arrow_patch (0, 0) (1, 0) kwColorFc none).params "ec" =
      some (V.str "y") := by
  have h := color_overrides_fc_ec (0, 0) (1, 0) kwColorFc none (V.str "y") rfl
    (Or.inl (by simp [kwColorFc]))
  exact ⟨rfl, by simp [kwColorFc], h.1, h.2⟩

/-! Concrete nodes used to evaluate the arrow geometry at failing inputs. -/

/-- A unit-radius node at the origin. -/
def nodeA : Node := ⟨(0, 0), "", true, 1⟩

/-- A unit-radius node directly above `nodeA`, at `(0, 1)`. -/
def nodeB : Node := ⟨(0, 1), "", true, 1⟩

/-- A unit-radius node directly above `nodeA`, at `(0, 10)`. -/
def nodeB10 : Node := ⟨(0, 10), "", true, 1⟩

/-- A unit-radius node at `(5, 0)`. -/
def nodeD : Node := ⟨(5, 0), "", true, 1⟩

/-- C1: the source computes `angle = np.arctan2(v[1], v[0])`, a value in
radians, and hands it to `dir2d`, which converts its argument from degrees to
radians; so for the vertical pair `nodeA = ((0,0), r=1)`,
`nodeB = ((0,1), r=1)` the arrow start is
`(cos (π²/360), sin (π²/360)) ≈ (0.9996, 0.0274)` and not the claimed point
`nodeA.xy + nodeA.radius • (0,1) = (0,1)` on the A→B direction. -/
theorem arrowto_misdirected_start :
    (nodeA.arrowto nodeB emptyKw).start =
      (Real.cos (Real.pi ^ 2 / 360), Real.sin (Real.pi ^ 2 / 360)) ∧
    (nodeA.arrowto nodeB emptyKw).start ≠ ((0 : ℝ), (1 : ℝ)) ∧
    nodeA.xy + nodeA.radius • ((0 : ℝ), (1 : ℝ)) = ((0 : ℝ), (1 : ℝ)) := by
  have hv : nodeB.xy - nodeA.xy = ((0 : ℝ), (1 : ℝ)) := by
    norm_num [nodeA, nodeB, Prod.mk_sub_mk]
  have hang : arctan2 ((0 : ℝ), (1 : ℝ)).2 ((0 : ℝ), (1 : ℝ)).1 = Real.pi / 2 := by
    show arctan2 1 0 = Real.pi / 2
    simp only [arctan2]
    norm_num
  have hrad : radians (Real.pi / 2) = Real.pi ^ 2 / 360 := by
    simp only [radians]; ring
  have hstart : (nodeA.arrowto nodeB emptyKw).start =
      (Real.cos (Real.pi ^ 2 / 360), Real.sin (Real.pi ^ 2 / 360)) := by
    rw [arrowto_start, hv, hang]
    simp only [nodeA, dir2d, hrad, Prod.smul_mk, smul_eq_mul, Prod.mk_add_mk,
      one_mul, zero_add]
  have hsin : Real.sin (Real.pi ^ 2 / 360) < 1 := by
    have h0 : (0 : ℝ) < Real.pi ^ 2 / 360 := by positivity
    have h1 := Real.sin_lt h0
    nlinarith [Real.pi_le_four, Real.pi_pos]
  refine ⟨hstart, ?_, ?_⟩
  · rw [hstart]
    intro h
    rw [Prod.mk.injEq] at h
    exact absurd h.2 (ne_of_lt hsin)
  · norm_num [nodeA, Prod.smul_mk, Prod.mk_add_mk]

/-- C2: with the same radians-as-degrees slip, for the disjoint vertical pair
`nodeA = ((0,0), r=1)`, `nodeB10 = ((0,10), r=1)` the point of the drawn
segment at parameter `t = 1/50` lies strictly inside `nodeA`'s circle: its
squared distance to the center is below `radius²`. -/
theorem arrowto_segment_enters_interior :
    (0 : ℝ) ≤ 1 / 50 ∧ (1 / 50 : ℝ) ≤ 1 ∧
    dist2 ((nodeA.arrowto nodeB10 emptyKw).start +
        (1 / 50 : ℝ) • ((nodeA.arrowto nodeB10 emptyKw).stop -
          (nodeA.arrowto nodeB10 emptyKw).start)) nodeA.xy
      < nodeA.radius ^ 2 := by
  refine ⟨by norm_num, by norm_num, ?_⟩
  have hv : nodeB10.xy - nodeA.xy = ((0 : ℝ), (10 : ℝ)) := by
    norm_num [nodeA, nodeB10, Prod.mk_sub_mk]
  have hang : arctan2 ((0 : ℝ), (10 : ℝ)).2 ((0 : ℝ), (10 : ℝ)).1 = Real.pi / 2 := by
    show arctan2 10 0 = Real.pi / 2
    simp only [arctan2]
    norm_num
  have hrad : radians (Real.pi / 2) = Real.pi ^ 2 / 360 := by
    simp only [radians]; ring
  have hstart : (nodeA.arrowto nodeB10 emptyKw).start =
      (Real.cos (Real.pi ^ 2 / 360), Real.sin (Real.pi ^ 2 / 360)) := by
    rw [arrowto_start, hv, hang]
    simp only [nodeA, dir2d, hrad, Prod.smul_mk, smul_eq_mul, Prod.mk_add_mk,
      one_mul, zero_add]
  have hstop : (nodeA.arrowto nodeB10 emptyKw).stop =
      ((0 : ℝ) - Real.cos (Real.pi ^ 2 / 360),
       (10 : ℝ) - Real.sin (Real.pi ^ 2 / 360)) := by
    rw [arrowto_stop, hv, hang]
    simp only [nodeB10, dir2d, hrad, Prod.smul_mk, smul_eq_mul, Prod.mk_sub_mk,
      one_mul]
  rw [hstart, hstop]
  have hc2 : Real.cos (Real.pi ^ 2 / 360) ^ 2 ≤ 1 := Real.cos_sq_le_one _
  have ha0 : (0 : ℝ) < Real.pi ^ 2 / 360 := by positivity
  have hapi : Real.pi ^ 2 / 360 < Real.pi := by
    nlinarith [Real.pi_pos, Real.pi_le_four]
  have hs0 : 0 < Real.sin (Real.pi ^ 2 / 360) :=
    Real.sin_pos_of_pos_of_lt_pi ha0 hapi
  have hs1 : Real.sin (Real.pi ^ 2 / 360) < 2 / 45 := by
    have h1 := Real.sin_lt ha0
    nlinarith [Real.pi_le_four, Real.pi_pos]
  simp only [nodeA, dist2, Prod.mk_sub_mk, Prod.smul_mk, smul_eq_mul,
    Prod.mk_add_mk]
  nlinarith [hc2, hs0, hs1, sq_nonneg (Real.sin (Real.pi ^ 2 / 360))]

/-- The arrow of `example()` from `start_text` to `q0` starts at
`(-0.55, 0)`: the direction is purely along `+x`, so `arctan2` returns `0`,
`dir2d 0 = (1, 0)`, and the start is `(-0.7, 0) + 0.15 • (1, 0)`. -/
theorem start_text_q0_arrow_start :
    (start_text.arrowto q0 emptyKw).start = ((-0.55 : ℝ), (0 : ℝ)) := by
  rw [arrowto_start]
  have hv : q0.xy - start_text.xy = ((0.7 : ℝ), (0 : ℝ)) := by
    norm_num [q0, start_text, Prod.mk_sub_mk]
  rw [hv]
  have ha : arctan2 ((0.7 : ℝ), (0 : ℝ)).2 ((0.7 : ℝ), (0 : ℝ)).1 = 0 := by
    show arctan2 0 0.7 = 0
    rw [arctan2, if_pos (by norm_num : (0 : ℝ) < 0.7), zero_div,
      Real.arctan_zero]
  rw [ha, dir2d_zero]
  norm_num [start_text, Prod.smul_mk, Prod.mk_add_mk]

/-- C3 counterexample: the start point of the example's first arrow is not
`(0.15, 0)` (that pair is the boundary offset, not the start point). -/
theorem example_arrow_start_ne_claimed :
    (start_text.arrowto q0 emptyKw).start ≠ ((0.15 : ℝ), (0 : ℝ)) := by
  rw [start_text_q0_arrow_start]
  intro h
  rw [Prod.mk.injEq] at h
  norm_num at h

/-- C3 (amended): in the example assembly, the start point of
`start_text.arrowto(q0)` equals `(-0.55, 0)`, i.e. `start_text`'s position
`(-0.7, 0)` displaced by the boundary offset `(0.15, 0)` along `+x`. -/
theorem example_arrow_start_value :
    (start_text.arrowto q0 emptyKw).start = ((-0.55 : ℝ), (0 : ℝ)) :=
  start_text_q0_arrow_start

/-- C4 counterexample: with both nodes of radius 1 at `(0,0)` and `(5,0)` and
`angleB = 0`, the end point of `curvearrowto` is `(4, 0)`, not the point
`(6, 0)` of `nodeD`'s boundary at angle `0` from its center. -/
theorem curvearrowto_stop_not_at_angleB :
    (nodeA.curvearrowto nodeD 0 0 emptyKw).stop ≠
      nodeD.xy + nodeD.radius • dir2d 0 := by
  show nodeD.xy - nodeD.radius • dir2d 0 ≠ nodeD.xy + nodeD.radius • dir2d 0
  rw [dir2d_zero]
  simp only [nodeD, Prod.smul_mk, smul_eq_mul, Prod.mk_sub_mk, Prod.mk_add_mk]
  intro h
  rw [Prod.mk.injEq] at h
  norm_num at h

/-- C4 (amended): `curvearrowto(other, angleA, angleB)` starts on this node's
boundary at angle `angleA` from its center; the end point is
`other.xy - other.radius • dir2d angleB`, which lies on `other`'s boundary at
angle `angleB + 180°` (not `angleB`) from its center; both are independent of
the direction between the centers, and the connection style is the `angle3`
style parameterized by the same two angles. -/
theorem curvearrowto_endpoints_spec (a b : Node) (angleA angleB : ℝ)
    (kw : Dict) :
    (a.curvearrowto b angleA angleB kw).start = a.xy + a.radius • dir2d angleA ∧
    (a.curvearrowto b angleA angleB kw).stop = b.xy - b.radius • dir2d angleB ∧
    (a.curvearrowto b angleA angleB kw).stop =
      b.xy + b.radius • dir2d (angleB + 180) ∧
    dist2 (a.curvearrowto b angleA angleB kw).start a.xy = a.radius ^ 2 ∧
    dist2 (a.curvearrowto b angleA angleB kw).stop b.xy = b.radius ^ 2 ∧
    (a.curvearrowto b angleA angleB kw).connectionstyle =
      some (ConnStyle.angle3 angleA angleB) := by
  refine ⟨rfl, rfl, ?_, ?_, ?_, rfl⟩
  · show b.xy - b.radius • dir2d angleB = b.xy + b.radius • dir2d (angleB + 180)
    rw [dir2d_add_180, smul_neg, ← sub_eq_add_neg]
  · exact dist2_add_smul_dir2d a.xy a.radius angleA
  · exact dist2_sub_smul_dir2d b.xy b.radius angleB

end DigraphPlot
